import Mathlib

/-!
Verification of the InfoScheduler repository (APScheduler dashboard) against
its natural-language specification.

The repository's only source file is `src/apscheduler_react_ui.tsx`: the React
client plus an embedded README.  The scheduler core itself (triggers, job
store, result log, executor pool) is described by the spec but its code is not
in the repository, so those parts are modelled from the spec's words; each such
definition carries a doc comment beginning `Modelled from the spec:`.
Client-side behaviour (JobForm.handleSubmit, JobCard rendering,
SchedulerControls, handleJobAction, fetchData) is translated directly from the
source file.

Time is modelled as natural numbers (seconds for job-level timestamps, minutes
for the cron field model).  JSON values are modelled by the `Json` inductive
below together with an executable parser standing in for the JavaScript
`JSON.parse` builtin (restricted to the standard JSON grammar; numbers are
kept symbolically as sign/integer-part/fraction-digits/exponent so no
floating-point arithmetic is involved).
-/

/-- JSON values as exchanged between the client and the API.  Numbers are kept
in their syntactic form (sign, integer part, fraction digits, optional signed
exponent) to avoid floating-point semantics. -/
inductive Json where
  | null : Json
  | bool (b : Bool) : Json
  | num (neg : Bool) (intPart : Nat) (frac : List Nat) (expPart : Option (Bool × Nat)) : Json
  | str (s : String) : Json
  | arr (elems : List Json) : Json
  | obj (fields : List (String × Json)) : Json

/-- Skip JSON whitespace, as `JSON.parse` does between tokens. -/
def skipWs : List Char → List Char
  | [] => []
  | c :: cs => if c = ' ' ∨ c = '\n' ∨ c = '\t' ∨ c = '\r' then skipWs cs else c :: cs

/-- Single-character string escapes accepted by the JSON grammar. -/
def escChar : Char → Option Char
  | '"' => some '"'
  | '\\' => some '\\'
  | '/' => some '/'
  | 'b' => some (Char.ofNat 8)
  | 'f' => some (Char.ofNat 12)
  | 'n' => some '\n'
  | 'r' => some '\r'
  | 't' => some '\t'
  | _ => none

/-- Value of one hexadecimal digit. -/
def hexVal (c : Char) : Option Nat :=
  if c.isDigit then some (c.toNat - 48)
  else if 'a' ≤ c ∧ c ≤ 'f' then some (c.toNat - 87)
  else if 'A' ≤ c ∧ c ≤ 'F' then some (c.toNat - 55)
  else none

/-- Parse the body of a JSON string literal (the opening quote already
consumed), returning the decoded characters and the rest of the input. -/
def parseStringBody : List Char → Option (List Char × List Char)
  | [] => none
  | '"' :: cs => some ([], cs)
  | '\\' :: 'u' :: a :: b :: c :: d :: cs => do
      let ha ← hexVal a
      let hb ← hexVal b
      let hc ← hexVal c
      let hd ← hexVal d
      let (s, rest) ← parseStringBody cs
      some (Char.ofNat (((ha * 16 + hb) * 16 + hc) * 16 + hd) :: s, rest)
  | '\\' :: e :: cs => do
      let ec ← escChar e
      let (s, rest) ← parseStringBody cs
      some (ec :: s, rest)
  | c :: cs => do
      let (s, rest) ← parseStringBody cs
      some (c :: s, rest)

/-- Longest prefix of decimal digits, as digit values. -/
def parseDigits : List Char → List Nat × List Char
  | [] => ([], [])
  | c :: cs =>
    if c.isDigit then
      let (ds, rest) := parseDigits cs
      ((c.toNat - 48) :: ds, rest)
    else ([], c :: cs)

/-- Combine digit values into a natural number. -/
def digitsToNat (ds : List Nat) : Nat := ds.foldl (fun a d => a * 10 + d) 0

/-- Parse the optional exponent of a JSON number and build the number value. -/
def parseExpPart (neg : Bool) (i : Nat) (frac : List Nat) (cs : List Char) :
    Option (Json × List Char) :=
  match cs with
  | 'e' :: rest | 'E' :: rest =>
    let (esign, rest2) : Bool × List Char :=
      match rest with
      | '+' :: r => (false, r)
      | '-' :: r => (true, r)
      | r => (false, r)
    match parseDigits rest2 with
    | ([], _) => none
    | (eds, rest3) => some (.num neg i frac (some (esign, digitsToNat eds)), rest3)
  | _ => some (.num neg i frac none, cs)

/-- Parse a JSON number after an optional leading minus sign (JSON rejects
leading zeros on a multi-digit integer part, as `JSON.parse` does). -/
def parseNumberFrom (neg : Bool) (cs : List Char) : Option (Json × List Char) :=
  match parseDigits cs with
  | ([], _) => none
  | (ds, rest) =>
    if 1 < ds.length ∧ ds.head? = some 0 then none
    else
      let i := digitsToNat ds
      match rest with
      | '.' :: rest2 =>
        match parseDigits rest2 with
        | ([], _) => none
        | (fs, rest3) => parseExpPart neg i fs rest3
      | _ => parseExpPart neg i [] rest

mutual

/-- Fueled recursive-descent parser for a JSON value; the model of the
JavaScript `JSON.parse` builtin used by `JobForm.handleSubmit`. -/
def parseValue : Nat → List Char → Option (Json × List Char)
  | 0, _ => none
  | fuel + 1, cs =>
    match skipWs cs with
    | [] => none
    | 'n' :: 'u' :: 'l' :: 'l' :: rest => some (.null, rest)
    | 't' :: 'r' :: 'u' :: 'e' :: rest => some (.bool true, rest)
    | 'f' :: 'a' :: 'l' :: 's' :: 'e' :: rest => some (.bool false, rest)
    | '"' :: rest => do
        let (s, rest2) ← parseStringBody rest
        some (.str (String.mk s), rest2)
    | '[' :: rest =>
        (match skipWs rest with
         | ']' :: rest2 => some (.arr [], rest2)
         | _ => do
            let (es, rest2) ← parseElems fuel rest
            some (.arr es, rest2))
    | '\x7b' :: rest =>
        (match skipWs rest with
         | '\x7d' :: rest2 => some (.obj [], rest2)
         | _ => do
            let (ms, rest2) ← parseMembers fuel rest
            some (.obj ms, rest2))
    | '-' :: rest => parseNumberFrom true rest
    | c :: rest => if c.isDigit then parseNumberFrom false (c :: rest) else none

/-- Parse the comma-separated elements of a non-empty JSON array, up to and
including the closing bracket. -/
def parseElems : Nat → List Char → Option (List Json × List Char)
  | 0, _ => none
  | fuel + 1, cs => do
    let (v, rest) ← parseValue fuel cs
    match skipWs rest with
    | ',' :: rest2 => do
        let (vs, rest3) ← parseElems fuel rest2
        some (v :: vs, rest3)
    | ']' :: rest2 => some ([v], rest2)
    | _ => none

/-- Parse the members of a non-empty JSON object, up to and including the
closing brace. -/
def parseMembers : Nat → List Char → Option (List (String × Json) × List Char)
  | 0, _ => none
  | fuel + 1, cs =>
    match skipWs cs with
    | '"' :: rest => do
        let (k, rest2) ← parseStringBody rest
        match skipWs rest2 with
        | ':' :: rest3 => do
            let (v, rest4) ← parseValue fuel rest3
            (match skipWs rest4 with
             | ',' :: rest5 => do
                let (ms, rest6) ← parseMembers fuel rest5
                some ((String.mk k, v) :: ms, rest6)
             | '\x7d' :: rest5 => some ([(String.mk k, v)], rest5)
             | _ => none)
        | _ => none
    | _ => none

end

/-- Model of the JavaScript `JSON.parse` builtin: parse a complete JSON
document, requiring the whole input to be consumed.  `none` models the
`SyntaxError` exception. -/
def jsonParse (s : String) : Option Json :=
  match parseValue (2 * s.length + 4) s.toList with
  | some (v, rest) => if skipWs rest = [] then some v else none
  | none => none

/-! ## Result Log (modelled from the spec; the backend is not in `src/`) -/

/-- The per-job history bound: "Last 50 results per job" (embedded README),
"Result Log retains only the most recent 50 per job" (spec). -/
def resultLogCapacity : Nat := 50

/-- Modelled from the spec: `record(job_id, result)` of the Result Log
"appends and evicts oldest beyond 50".  The log is kept in chronological
(recording) order; the per-job dimension is dropped since every claim speaks
of one job's log. -/
def ResultLog.record {α : Type} (log : List α) (r : α) : List α :=
  let l2 := log ++ [r]
  if resultLogCapacity < l2.length then l2.drop (l2.length - resultLogCapacity) else l2

/-- Modelled from the spec: `history(job_id, limit)` "returns
most-recent-first" — the reverse of the chronological log.  This is the
spec's-words definition, kept to compare with the ordering the client code
actually consumes. -/
def ResultLog.historyMostRecentFirst {α : Type} (log : List α) : List α :=
  log.reverse

/-! ## Client-side rendering of execution results (JobCard, source lines
428–451) -/

/-- JavaScript `list.slice(-n)`: the last `min n (length)` elements. -/
def jsSliceLast {α : Type} (l : List α) (n : Nat) : List α :=
  l.drop (l.length - n)

/-- From the source (`JobCard`, line 435): the rendered execution-result rows
are `results.slice(-5).reverse()` applied to the list fetched from
`GET /jobs/{id}/results`. -/
def displayedResults {α : Type} (results : List α) : List α :=
  (jsSliceLast results 5).reverse

/-! ## Cron trigger (modelled from the spec; the backend is not in `src/`) -/

/-- Modelled from the spec: a Cron trigger constrains the minute, hour and
day-of-week fields; an unconstrained field (`none`) matches any value.  The
day-of-week constraint is the parsed inclusive set of allowed days. -/
structure CronTrigger where
  minute : Option Nat
  hour : Option Nat
  dayOfWeek : Option (List Nat)

/-- Parse the `day_of_week` select value of the job form (source lines
249–267: `""` = any day, a single digit `"0"`–`"6"`, or an inclusive range
such as `"0-4"`).  Per the spec, a range string denotes the inclusive set of
days it spans. -/
def parseDayOfWeek (s : String) : Option (List Nat) :=
  if s = "" then none
  else
    match s.toList with
    | [c] => if c.isDigit then some [c.toNat - 48] else some []
    | [a, '-', b] =>
      if a.isDigit ∧ b.isDigit then
        some (List.range' (a.toNat - 48) (b.toNat - 48 + 1 - (a.toNat - 48)))
      else some []
    | _ => some []

/-- The `day_of_week` select options of the job form, value paired with label
(source lines 256–265).  The code encodes day-of-week values with
0 = Sunday through 6 = Saturday. -/
def dayOfWeekOptions : List (String × String) :=
  [("", "Any day"), ("0", "Sunday"), ("1", "Monday"), ("2", "Tuesday"),
   ("3", "Wednesday"), ("4", "Thursday"), ("5", "Friday"), ("6", "Saturday"),
   ("0-4", "Weekdays"), ("5-6", "Weekends")]

/-- Minute-of-hour of a timestamp counted in minutes. -/
def minuteOf (t : Nat) : Nat := t % 60

/-- Hour-of-day of a timestamp counted in minutes. -/
def hourOf (t : Nat) : Nat := t / 60 % 24

/-- Day-of-week of a timestamp counted in minutes, encoded 0 = Sunday through
6 = Saturday; minute 0 of the model calendar falls on a Sunday. -/
def dowOf (t : Nat) : Nat := t / 1440 % 7

/-- Modelled from the spec: a timestamp (in minutes) "satisfies all configured
constraints" of a Cron trigger; "unconstrained fields match any value". -/
def cronMatches (c : CronTrigger) (t : Nat) : Bool :=
  (match c.minute with
   | none => true
   | some m => minuteOf t = m) &&
  (match c.hour with
   | none => true
   | some h => hourOf t = h) &&
  (match c.dayOfWeek with
   | none => true
   | some ds => ds.contains (dowOf t))

/-- The bounded search window for Cron computation required by the spec's edge
case ("cap search horizon").  One week of minutes plus one covers the full
period of the minute/hour/day-of-week pattern. -/
def cronSearchHorizon : Nat := 7 * 24 * 60 + 1

/-- Linear search for the first matching minute, bounded by fuel. -/
def cronSearch (c : CronTrigger) : Nat → Nat → Option Nat
  | 0, _ => none
  | fuel + 1, t => if cronMatches c t then some t else cronSearch c fuel (t + 1)

/-- Modelled from the spec: Cron `next_fire` "computes the earliest timestamp
strictly greater than `after` whose minute/hour/day-of-week fields satisfy all
configured constraints", within a bounded search window (`none` when the
constraints are unsatisfiable, surfacing a configuration error). -/
def cronNextFire (c : CronTrigger) (after : Nat) : Option Nat :=
  cronSearch c cronSearchHorizon (after + 1)

/-! ## Triggers and jobs (modelled from the spec; the backend is not in
`src/`) -/

/-- The combined elapsed-time value of an Interval trigger, per the spec:
"Interval duration is the configured seconds/minutes/hours combined into one
elapsed-time value". -/
def intervalDuration (s m h : Nat) : Nat := s + 60 * m + 3600 * h

/-- Modelled from the spec: the tagged trigger variant of a Job —
`Interval{seconds, minutes, hours}`, `Cron{minute, hour, day_of_week}`,
`Date{run_at}`. -/
inductive Trigger where
  | interval (seconds minutes hours : Nat) : Trigger
  | cron (c : CronTrigger) : Trigger
  | date (runAt : Nat) : Trigger

/-- Modelled from the spec: `next_fire(trigger, after)`.  Interval: "first
call returns `after + interval`".  Cron: the earliest matching minute boundary
strictly after `after` (job timestamps are in seconds, the cron model in
minutes).  Date: "returns the configured timestamp only if it is strictly
greater than `after`", absent afterwards. -/
def Trigger.next_fire : Trigger → Nat → Option Nat
  | .interval s m h, after => some (after + intervalDuration s m h)
  | .cron c, after => (cronNextFire c (after / 60)).map (· * 60)
  | .date runAt, after => if after < runAt then some runAt else none

/-- Modelled from the spec: creation-time validation of an Interval trigger —
"duration must be > 0, else the trigger is rejected at creation"
(`InvalidTrigger`). -/
def mkIntervalTrigger (s m h : Nat) : Except String Trigger :=
  if intervalDuration s m h = 0 then .error "InvalidTrigger"
  else .ok (.interval s m h)

/-- Modelled from the spec's Job data model: the fields the pause/resume
claims touch — trigger, paused flag, and the optional `next_run_time`
("absent means not scheduled"). -/
structure Job where
  id : String
  name : String
  trigger : Trigger
  paused : Bool
  next_run_time : Option Nat

/-- Modelled from the spec: `add(job)` schedules the job with
`next_run_time` computed by the trigger from the add time. -/
def addJob (id name : String) (trig : Trigger) (now : Nat) : Job :=
  { id := id, name := name, trigger := trig, paused := false,
    next_run_time := trig.next_fire now }

/-- Modelled from the spec: `set_paused(id, bool)` — "pausing clears
next_run_time; resuming recomputes it via Trigger.next_fire(now)". -/
def set_paused (j : Job) (p : Bool) (now : Nat) : Job :=
  if p then { j with paused := true, next_run_time := none }
  else { j with paused := false, next_run_time := j.trigger.next_fire now }

/-! ## Client-side job card (source lines 355–426) -/

/-- From the source (`JobCard`, line 375): the Next Run cell renders the
timestamp when present and the literal `Not scheduled` otherwise (locale
formatting of the timestamp abstracted to `toString`). -/
def renderNextRun (j : Job) : String :=
  match j.next_run_time with
  | some t => toString t
  | none => "Not scheduled"

/-- From the source (`JobCard`, line 403): the pause/resume button issues
`pause` when `job.next_run_time` is present and `resume` otherwise — presence
of `next_run_time` is the sole paused indicator. -/
def pauseResumeAction (j : Job) : String :=
  if j.next_run_time.isSome then "pause" else "resume"

/-! ## Scheduler status record and the SchedulerControls client view (source
lines 459–525) -/

/-- A JSON object as the client receives it: an association list of field
names to values, looked up first-match. -/
abbrev StatusRecord : Type := List (String × Json)

/-- Field access `status.field` on a received JSON record. -/
def jlookup (r : StatusRecord) (k : String) : Option Json :=
  List.lookup k r

/-- JavaScript truthiness of an accessed field (`undefined`, `null`, `false`,
`0` and `""` are falsy). -/
def truthy : Option Json → Bool
  | none => false
  | some .null => false
  | some (.bool b) => b
  | some (.num _ i f _) => !(i = 0 && f.all (· = 0))
  | some (.str s) => s ≠ ""
  | some (.arr _) => true
  | some (.obj _) => true

/-- Everything `SchedulerControls` renders from the status record. -/
structure ControlsView where
  statusColor : String
  badge : String
  jobsLine : Option Json
  stateLine : Option Json
  nextWakeupLine : Option Json
  startDisabled : Bool
  pauseDisabled : Bool
  shutdownDisabled : Bool

/-- From the source (`SchedulerControls`, lines 459–523): the component reads
`status.running` (colour, badge, button disabling), `status.jobs_count`,
`status.state` and `status.next_wakeup` (conditionally rendered). -/
def schedulerControlsView (status : StatusRecord) : ControlsView :=
  let running := truthy (jlookup status "running")
  { statusColor := if running then "bg-green-100 text-green-800" else "bg-red-100 text-red-800"
    badge := if running then "RUNNING" else "STOPPED"
    jobsLine := jlookup status "jobs_count"
    stateLine := jlookup status "state"
    nextWakeupLine :=
      if truthy (jlookup status "next_wakeup") then jlookup status "next_wakeup" else none
    startDisabled := running
    pauseDisabled := !running
    shutdownDisabled := !running }

/-- The status-record field names the `SchedulerControls` component accesses
(source lines 462, 476, 483, 484, 485). -/
def clientStatusReads : List String := ["running", "jobs_count", "state", "next_wakeup"]

/-- The status-record field set of the spec's words, kept for comparison with
the fields the client reads: `scheduler_status() -> {state, job_count,
next_wakeup}`. -/
def specStatusFields : List String := ["state", "job_count", "next_wakeup"]

/-! ## Execution results (Executor Pool modelled from the spec; rendering from
the source) -/

/-- Modelled from the spec: the outcome an Executor Pool run reports —
a success payload or an error message. -/
inductive ExecOutcome where
  | success (payload : Json) : ExecOutcome
  | failure (message : String) : ExecOutcome

/-- Modelled from the spec's ExecutionResult data model: "job id, execution
timestamp, status ∈ {success, error}, result payload (opaque value) or error
message, duration". -/
structure ExecutionResult where
  job_id : String
  execution_time : Nat
  status : String
  result : Option Json
  error : Option String
  duration : Nat

/-- Modelled from the spec: the Executor Pool records an ExecutionResult on
completion, with status `success` carrying the result payload and status
`error` carrying the error message. -/
def mkExecutionResult (jid : String) (t : Nat) (dur : Nat) : ExecOutcome → ExecutionResult
  | .success p =>
    { job_id := jid, execution_time := t, status := "success",
      result := some p, error := none, duration := dur }
  | .failure msg =>
    { job_id := jid, execution_time := t, status := "error",
      result := none, error := some msg, duration := dur }

/-- From the source (`JobCard`, line 437): a result row is styled green when
`result.status === 'success'` and red otherwise — any non-success status is
treated as an error. -/
def resultStyle (r : ExecutionResult) : String :=
  if r.status = "success" then "bg-green-100 text-green-800"
  else "bg-red-100 text-red-800"

/-! ## Job creation form (JobForm.handleSubmit, source lines 61–91) -/

/-- The `JobForm` component state (source lines 44–53). -/
structure JobFormData where
  name : String
  func_name : String
  custom_code : String
  trigger_type : String
  args : String
  kwargs : String
  max_instances : Nat

/-- The request body `handleSubmit` builds for `POST /jobs`. -/
structure JobData where
  name : String
  func_name : String
  trigger_type : String
  args : Json
  kwargs : Json
  custom_code : Option String
  max_instances : Nat

/-- From the source (`JobForm.handleSubmit`, lines 61–75): the job payload.
`args` is the JSON parse of the raw field wrapped in square brackets, or `[]`
when the field is empty; `kwargs` is the JSON parse of the raw field, or `{}`
when empty; `custom_code` is attached only for the `custom_code` function.
`none` models a thrown `JSON.parse` SyntaxError, caught before any request is
sent. -/
def buildJobData (f : JobFormData) : Option JobData := do
  let a ← if f.args = "" then some (Json.arr []) else jsonParse ("[" ++ f.args ++ "]")
  let k ← if f.kwargs = "" then some (Json.obj []) else jsonParse f.kwargs
  some { name := f.name, func_name := f.func_name, trigger_type := f.trigger_type,
         args := a, kwargs := k,
         custom_code := if f.func_name = "custom_code" then some f.custom_code else none,
         max_instances := f.max_instances }

/-- The HTTP requests the client can issue (the `api` object, source lines
7–25). -/
inductive Request where
  | getStatus : Request
  | getJobs : Request
  | getFunctions : Request
  | createJobReq (d : JobData) : Request
  | deleteJobReq (id : String) : Request
  | pauseJobReq (id : String) : Request
  | resumeJobReq (id : String) : Request
  | executeJobReq (id : String) : Request

/-- From the source (`JobForm.handleSubmit`): the requests the submit handler
issues — `api.createJob(jobData)` when the payload was built, nothing when
`JSON.parse` threw (the catch block only alerts). -/
def handleSubmitRequests (f : JobFormData) : List Request :=
  match buildJobData f with
  | some d => [Request.createJobReq d]
  | none => []

/-! ## Job actions (handleJobAction, source lines 589–620) and polling
(fetchData, source lines 541–559) -/

/-- The server-side job collection, as far as the delete action observes it. -/
structure ServerState where
  jobs : List String

/-- `DELETE /jobs/{id}` removes the job (embedded README line 767: "Remove job
and cleanup results"). -/
def deleteJobApi (s : ServerState) (id : String) : ServerState :=
  { jobs := s.jobs.filter (· ≠ id) }

/-- The three requests `fetchData` issues together (source lines 544–548). -/
def fetchDataRequests : List Request :=
  [Request.getStatus, Request.getJobs, Request.getFunctions]

/-- From the source (`handleJobAction`, lines 589–620): the requests issued
and the resulting server state for one job action.  The delete branch issues
`api.deleteJob` only inside `if (window.confirm(...))`; every recognised
action is followed by `fetchData()`; an unrecognised action returns early. -/
def handleJobAction (action : String) (jobId : String) (confirmDelete : Bool)
    (server : ServerState) : List Request × ServerState :=
  if action = "execute" then (Request.executeJobReq jobId :: fetchDataRequests, server)
  else if action = "pause" then (Request.pauseJobReq jobId :: fetchDataRequests, server)
  else if action = "resume" then (Request.resumeJobReq jobId :: fetchDataRequests, server)
  else if action = "delete" then
    if confirmDelete then
      (Request.deleteJobReq jobId :: fetchDataRequests, deleteJobApi server jobId)
    else (fetchDataRequests, server)
  else ([], server)

/-- The `GET /functions` response shape: `functionsRes.functions` may be
missing, in which case the client falls back to `[]` (source line 552). -/
structure FunctionsResp where
  functions : Option (List String)

/-- The client component state `fetchData` updates (source lines 530–534). -/
structure ClientState where
  schedulerStatus : Option StatusRecord
  jobs : List String
  availableFunctions : List String
  loading : Bool
  notification : Option (String × String)

/-- `Promise.all` over the three fetches: succeeds only when all three do,
otherwise fails with the first error. -/
def promiseAll3 (r1 : Except String StatusRecord) (r2 : Except String (List String))
    (r3 : Except String FunctionsResp) :
    Except String (StatusRecord × List String × FunctionsResp) := do
  let a ← r1
  let b ← r2
  let c ← r3
  pure (a, b, c)

/-- The error notification `fetchData` shows when any fetch fails (source
line 555). -/
def fetchErrorNotification : String × String :=
  ("Error connecting to scheduler API. Make sure the backend is running.", "error")

/-- From the source (`fetchData`, lines 541–559): the three responses are
awaited together with `Promise.all`; only after all three succeed are
`schedulerStatus`, `jobs` and `availableFunctions` set.  On any failure the
catch block only shows the error notification; `loading` ends false either
way. -/
def fetchData (st : ClientState) (r1 : Except String StatusRecord)
    (r2 : Except String (List String)) (r3 : Except String FunctionsResp) : ClientState :=
  match promiseAll3 r1 r2 r3 with
  | .ok (statusRes, jobsRes, functionsRes) =>
    { st with schedulerStatus := some statusRes, jobs := jobsRes,
              availableFunctions := functionsRes.functions.getD [], loading := false }
  | .error _ =>
    { st with notification := some fetchErrorNotification, loading := false }

/-! ## Claim C1 -/

/-- A concrete chronological log of six execution results (recorded in the
order 0,1,2,3,4,5, so 5 is the newest). -/
def c1Log : List Nat := [0, 1, 2, 3, 4, 5]

/-- Claim C1 counterexample: if `GET /jobs/{id}/results` returned the
ExecutionResults most-recent-first (the spec's `history` ordering), the
client's rendering `results.slice(-5).reverse()` would display the five
OLDEST results and omit the newest execution entirely — contradicting the
rendering's purpose (the embedded README: "Result History - Last 5 executions
per job").  With a chronological (oldest-first) response the same rendering
displays exactly the newest five, most recent first. -/
theorem c1_counterexample :
    displayedResults (ResultLog.historyMostRecentFirst c1Log) = [0, 1, 2, 3, 4]
    ∧ (5 : Nat) ∉ displayedResults (ResultLog.historyMostRecentFirst c1Log)
    ∧ displayedResults c1Log = [5, 4, 3, 2, 1] := by
  refine ⟨rfl, by decide, rfl⟩

/-- Claim C1 (amended): the execution-history query returns the job's
ExecutionResults in chronological order (oldest first), so the LAST element is
the newest execution; `JobCard` obtains its most-recent-first display of the
newest five via `results.slice(-5).reverse()` — for every chronological list,
the displayed rows are exactly the first five of the reversed list, i.e. the
newest at most five results, most recent first. -/
theorem c1_history_chronological_render {α : Type} (log : List α) :
    displayedResults log = log.reverse.take 5 := by
  show (jsSliceLast log 5).reverse = log.reverse.take 5
  have h : jsSliceLast log 5 = List.rtake log 5 := rfl
  rw [h, List.rtake_eq_reverse_take_reverse, List.reverse_reverse]

/-! ## Claim C3 -/

theorem record_rtake {α : Type} (l : List α) (r : α) :
    ResultLog.record (List.rtake l 50) r = List.rtake (l ++ [r]) 50 := by
  rcases le_or_lt l.length 49 with h | h
  · have h0 : l.length - 50 = 0 := by omega
    have h1 : List.rtake l 50 = l := by simp [List.rtake, h0]
    have hc : ¬ (resultLogCapacity < (l ++ [r]).length) := by
      simp [resultLogCapacity]
      omega
    have h2 : l.length + 1 - 50 = 0 := by omega
    rw [h1]
    show (if resultLogCapacity < (l ++ [r]).length
          then (l ++ [r]).drop ((l ++ [r]).length - resultLogCapacity)
          else l ++ [r]) = List.rtake (l ++ [r]) 50
    rw [if_neg hc]
    simp [List.rtake, h2]
  · have hs : (List.rtake l 50).length = 50 := by
      simp [List.rtake]
      omega
    have hc : resultLogCapacity < (List.rtake l 50 ++ [r]).length := by
      simp [hs, resultLogCapacity]
    show (if resultLogCapacity < (List.rtake l 50 ++ [r]).length
          then (List.rtake l 50 ++ [r]).drop ((List.rtake l 50 ++ [r]).length - resultLogCapacity)
          else List.rtake l 50 ++ [r]) = List.rtake (l ++ [r]) 50
    rw [if_pos hc]
    have hlen2 : (List.rtake l 50 ++ [r]).length - resultLogCapacity = 1 := by
      simp [hs, resultLogCapacity]
    have hsplit : List.rtake l 50 ++ [r] = (l ++ [r]).drop (l.length - 50) := by
      rw [List.rtake, List.drop_append_of_le_length (by omega)]
    rw [hlen2, hsplit, List.drop_drop]
    simp [List.rtake]
    congr 1
    omega

theorem foldl_record_rtake {α : Type} (rs : List α) :
    ∀ l : List α, List.foldl ResultLog.record (List.rtake l 50) rs = List.rtake (l ++ rs) 50 := by
  induction rs with
  | nil => intro l; simp
  | cons r rs ih =>
    intro l
    rw [List.foldl_cons, record_rtake, ih (l ++ [r])]
    simp

/-- Claim C3: replaying any sequence of `record` calls from an empty Result
Log leaves exactly the last 50 recorded results, in recency order, so the log
holds at most 50 entries at all times; in particular after the 51st `record`
the oldest entry is evicted and the newest 50 remain (FIFO bound). -/
theorem c3_result_log_bound :
    (∀ (α : Type) (rs : List α),
      List.foldl ResultLog.record [] rs = List.rtake rs 50
      ∧ (List.foldl ResultLog.record [] rs).length ≤ resultLogCapacity)
    ∧ List.foldl ResultLog.record [] (List.range 51) = (List.range 51).drop 1 := by
  have hgen : ∀ (α : Type) (rs : List α),
      List.foldl ResultLog.record [] rs = List.rtake rs 50 := by
    intro α rs
    have h := foldl_record_rtake rs ([] : List α)
    simpa using h
  refine ⟨fun α rs => ⟨hgen α rs, ?_⟩, ?_⟩
  · rw [hgen]
    simp [List.rtake, resultLogCapacity]
    omega
  · rw [hgen]
    simp [List.rtake]

/-! ## Claim C2 -/

/-- A status record carrying exactly the field set the spec names for
`scheduler_status`: state, job_count, next_wakeup. -/
def specStatusRecordA : StatusRecord :=
  [("state", Json.str "running"), ("job_count", Json.num false 3 [] none),
   ("next_wakeup", Json.null)]

/-- The same record with the extra field `running` appended — it agrees with
`specStatusRecordA` on every spec-named field. -/
def specStatusRecordB : StatusRecord :=
  specStatusRecordA ++ [("running", Json.bool true)]

/-- Claim C2 counterexample: on a status record carrying exactly the spec's
fields `{state, job_count, next_wakeup}`, the `SchedulerControls` component
renders the badge STOPPED although `state` is `"running"`, and its Jobs line
reads nothing — because the client reads the field names `running` and
`jobs_count`, which are not among the spec's three.  Two records agreeing on
all three spec fields render differently, so the client reads field names
outside that set. -/
theorem c2_counterexample :
    jlookup specStatusRecordB "state" = jlookup specStatusRecordA "state"
    ∧ jlookup specStatusRecordB "job_count" = jlookup specStatusRecordA "job_count"
    ∧ jlookup specStatusRecordB "next_wakeup" = jlookup specStatusRecordA "next_wakeup"
    ∧ jlookup specStatusRecordA "state" = some (Json.str "running")
    ∧ (schedulerControlsView specStatusRecordA).badge = "STOPPED"
    ∧ (schedulerControlsView specStatusRecordB).badge = "RUNNING"
    ∧ (schedulerControlsView specStatusRecordA).jobsLine = none := by
  exact ⟨rfl, rfl, rfl, rfl, rfl, rfl, rfl⟩

/-- Claim C2 (amended): the field names the client reads from the
scheduler-status record are `running`, `jobs_count`, `state` and
`next_wakeup` (so the record must carry `running` and `jobs_count`, and the
client never reads `job_count`): everything `SchedulerControls` renders is
determined by those four fields alone. -/
theorem c2_status_fields_read (r1 r2 : StatusRecord)
    (h : ∀ k, k ∈ clientStatusReads → jlookup r1 k = jlookup r2 k) :
    schedulerControlsView r1 = schedulerControlsView r2 := by
  have h1 := h "running" (by simp [clientStatusReads])
  have h2 := h "jobs_count" (by simp [clientStatusReads])
  have h3 := h "state" (by simp [clientStatusReads])
  have h4 := h "next_wakeup" (by simp [clientStatusReads])
  simp [schedulerControlsView, h1, h2, h3, h4]

/-- A status record carrying all four fields the client reads. -/
def clientStatusRecordA : StatusRecord :=
  [("running", Json.bool true), ("jobs_count", Json.num false 3 [] none),
   ("state", Json.str "running"), ("next_wakeup", Json.null)]

/-- The same record with an unread extra field appended. -/
def clientStatusRecordB : StatusRecord :=
  clientStatusRecordA ++ [("extra", Json.str "x")]

/-- Witness for C2: two concrete records agreeing on the four read fields
render identically. -/
theorem c2_status_fields_read_witness :
    schedulerControlsView clientStatusRecordA = schedulerControlsView clientStatusRecordB :=
  c2_status_fields_read clientStatusRecordA clientStatusRecordB (by
    intro k hk
    simp [clientStatusReads] at hk
    rcases hk with rfl | rfl | rfl | rfl <;> rfl)

/-! ## Claim C5 -/

/-- Claim C5: pausing a job clears `next_run_time` (the UI then renders `Not
scheduled` and offers `resume`, using absence of `next_run_time` as the
paused indicator), and resuming recomputes `next_run_time` via the trigger
anchored at the resume time; in the spec's scenario an Interval(60s) job
added at t=0 has next_run_time 60, pausing at t=30 clears it, and resuming at
t=90 recomputes 90+60=150. -/
theorem c5_pause_resume (j : Job) (now : Nat) :
    (set_paused j true now).next_run_time = none
    ∧ renderNextRun (set_paused j true now) = "Not scheduled"
    ∧ pauseResumeAction (set_paused j true now) = "resume"
    ∧ (set_paused j false now).next_run_time = j.trigger.next_fire now
    ∧ (addJob "j1" "job" (.interval 60 0 0) 0).next_run_time = some 60
    ∧ (set_paused (addJob "j1" "job" (.interval 60 0 0) 0) true 30).next_run_time = none
    ∧ (set_paused (set_paused (addJob "j1" "job" (.interval 60 0 0) 0) true 30)
        false 90).next_run_time = some 150 := by
  exact ⟨rfl, rfl, rfl, rfl, rfl, rfl, rfl⟩

/-! ## Claim C6 -/

/-- Claim C6: for every Interval trigger accepted at creation (combined
duration D = seconds + 60·minutes + 3600·hours, required positive), and every
timestamp t, `next_fire(trigger, t)` equals `t + D` exactly — intervals are
anchored to the moment the job was added or resumed. -/
theorem c6_interval_next_fire (s m h : Nat) (trig : Trigger) (t : Nat)
    (hmk : mkIntervalTrigger s m h = .ok trig) :
    trig.next_fire t = some (t + intervalDuration s m h)
    ∧ 0 < intervalDuration s m h := by
  unfold mkIntervalTrigger at hmk
  by_cases hd : intervalDuration s m h = 0
  · rw [if_pos hd] at hmk
    cases hmk
  · rw [if_neg hd] at hmk
    cases hmk
    exact ⟨rfl, Nat.pos_of_ne_zero hd⟩

/-- Witness for C6 at a 60-second interval and t = 0. -/
theorem c6_interval_next_fire_witness :
    Trigger.next_fire (.interval 60 0 0) 0 = some (0 + intervalDuration 60 0 0)
    ∧ 0 < intervalDuration 60 0 0 :=
  c6_interval_next_fire 60 0 0 (.interval 60 0 0) 0 rfl

/-! ## Claim C7 -/

/-- Claim C7: every ExecutionResult the Executor Pool records has status
`success` or `error`; a success carries the result payload (and no error
message), an error carries the error message (and no payload); and the
client's row styling treats exactly the `success` status as success, so any
non-success status is rendered as error. -/
theorem c7_execution_result_status (jid : String) (t dur : Nat) (p : Json) (msg : String) :
    (mkExecutionResult jid t dur (.success p)).status = "success"
    ∧ (mkExecutionResult jid t dur (.success p)).result = some p
    ∧ (mkExecutionResult jid t dur (.success p)).error = none
    ∧ (mkExecutionResult jid t dur (.failure msg)).status = "error"
    ∧ (mkExecutionResult jid t dur (.failure msg)).result = none
    ∧ (mkExecutionResult jid t dur (.failure msg)).error = some msg
    ∧ (∀ o : ExecOutcome, (mkExecutionResult jid t dur o).status = "success"
        ∨ (mkExecutionResult jid t dur o).status = "error")
    ∧ (∀ o : ExecOutcome,
        resultStyle (mkExecutionResult jid t dur o) = "bg-green-100 text-green-800"
          ↔ (mkExecutionResult jid t dur o).status = "success") := by
  refine ⟨rfl, rfl, rfl, rfl, rfl, rfl, ?_, ?_⟩
  · intro o
    cases o
    · exact Or.inl rfl
    · exact Or.inr rfl
  · intro o
    cases o <;> simp [mkExecutionResult, resultStyle]

/-! ## Claim C9 -/

/-- Claim C9: the client issues a `DELETE /jobs/{id}` request only after
`window.confirm` returns true: with the confirmation declined, the delete
action issues no delete request (only the refresh fetches) and the job list
is unchanged; with it accepted, the delete request is issued. -/
theorem c9_delete_requires_confirm (jobId : String) (server : ServerState) :
    Request.deleteJobReq jobId ∉ (handleJobAction "delete" jobId false server).1
    ∧ (handleJobAction "delete" jobId false server).2 = server
    ∧ (handleJobAction "delete" jobId false server).1 = fetchDataRequests
    ∧ Request.deleteJobReq jobId ∈ (handleJobAction "delete" jobId true server).1 := by
  refine ⟨?_, rfl, rfl, ?_⟩
  · intro hmem
    have h : (handleJobAction "delete" jobId false server).1 = fetchDataRequests := rfl
    rw [h] at hmem
    simp [fetchDataRequests] at hmem
  · have h : (handleJobAction "delete" jobId true server).1 =
        Request.deleteJobReq jobId :: fetchDataRequests := rfl
    rw [h]
    exact List.mem_cons_self _ _

/-! ## Claim C10 -/

/-- Claim C10: one polling cycle fetches the scheduler status, the job list
and the function list together with `Promise.all` (which succeeds exactly
when all three fetches succeed); if any fetch fails, none of
`schedulerStatus`, `jobs`, `availableFunctions` is updated and the error
notification is shown, and only when all three succeed are all three states
replaced by the fetched values. -/
theorem c10_fetch_all_or_nothing (st : ClientState)
    (r1 : Except String StatusRecord) (r2 : Except String (List String))
    (r3 : Except String FunctionsResp) :
    (promiseAll3 r1 r2 r3).isOk = (r1.isOk && r2.isOk && r3.isOk)
    ∧ (∀ e, promiseAll3 r1 r2 r3 = .error e →
        (fetchData st r1 r2 r3).schedulerStatus = st.schedulerStatus
        ∧ (fetchData st r1 r2 r3).jobs = st.jobs
        ∧ (fetchData st r1 r2 r3).availableFunctions = st.availableFunctions
        ∧ (fetchData st r1 r2 r3).notification = some fetchErrorNotification)
    ∧ (∀ s js fns, promiseAll3 r1 r2 r3 = .ok (s, js, fns) →
        fetchData st r1 r2 r3 =
          { st with schedulerStatus := some s, jobs := js,
                    availableFunctions := fns.functions.getD [], loading := false }) := by
  refine ⟨?_, ?_, ?_⟩
  · cases r1 <;> cases r2 <;> cases r3 <;> rfl
  · intro e he
    unfold fetchData
    rw [he]
    exact ⟨rfl, rfl, rfl, rfl⟩
  · intro s js fns he
    unfold fetchData
    rw [he]

/-- A concrete client state for the C10 witness. -/
def c10State : ClientState :=
  { schedulerStatus := none, jobs := ["a"], availableFunctions := ["sample_job"],
    loading := true, notification := none }

/-- Witness for C10: with the status fetch failing and the other two
succeeding, the three displayed states are retained and the error
notification is shown; with all three succeeding, the states are replaced. -/
theorem c10_fetch_all_or_nothing_witness :
    ((fetchData c10State (.error "connection refused") (.ok []) (.ok ⟨none⟩)).schedulerStatus
        = c10State.schedulerStatus
      ∧ (fetchData c10State (.error "connection refused") (.ok []) (.ok ⟨none⟩)).jobs
        = c10State.jobs
      ∧ (fetchData c10State (.error "connection refused") (.ok []) (.ok ⟨none⟩)).availableFunctions
        = c10State.availableFunctions
      ∧ (fetchData c10State (.error "connection refused") (.ok []) (.ok ⟨none⟩)).notification
        = some fetchErrorNotification)
    ∧ fetchData c10State (.ok []) (.ok ["b"]) (.ok ⟨some ["f"]⟩) =
        { c10State with schedulerStatus := some [], jobs := ["b"],
                        availableFunctions := ["f"], loading := false } :=
  ⟨(c10_fetch_all_or_nothing c10State (.error "connection refused") (.ok []) (.ok ⟨none⟩)).2.1
      "connection refused" rfl,
   (c10_fetch_all_or_nothing c10State (.ok []) (.ok ["b"]) (.ok ⟨some ["f"]⟩)).2.2
      [] ["b"] ⟨some ["f"]⟩ rfl⟩

/-! ## Claim C4 -/

theorem cronSearch_sound (c : CronTrigger) :
    ∀ (fuel t0 t : Nat), cronSearch c fuel t0 = some t → t0 ≤ t ∧ cronMatches c t = true := by
  intro fuel
  induction fuel with
  | zero =>
    intro t0 t h
    simp [cronSearch] at h
  | succ n ih =>
    intro t0 t h
    rw [cronSearch] at h
    split_ifs at h with hm
    · cases h
      exact ⟨le_refl _, hm⟩
    · obtain ⟨h1, h2⟩ := ih (t0 + 1) t h
      exact ⟨by omega, h2⟩

/-- Claim C4: whenever the Cron trigger's `next_fire(trigger, after)` returns
a timestamp, that timestamp is strictly greater than `after` and satisfies
every configured minute/hour/day-of-week constraint; day-of-week values are
encoded 0 = Sunday through 6 = Saturday (matching the form's option labels),
and the range string `0-4` parses to the inclusive set
{Sunday, …, Thursday} = {0, 1, 2, 3, 4}. -/
theorem c4_cron_next_fire :
    (∀ (c : CronTrigger) (after t : Nat),
      cronNextFire c after = some t → after < t ∧ cronMatches c t = true)
    ∧ parseDayOfWeek "0-4" = some [0, 1, 2, 3, 4]
    ∧ parseDayOfWeek "5-6" = some [5, 6]
    ∧ dayOfWeekOptions.lookup "0" = some "Sunday"
    ∧ dayOfWeekOptions.lookup "4" = some "Thursday"
    ∧ dayOfWeekOptions.lookup "6" = some "Saturday" := by
  refine ⟨?_, rfl, rfl, rfl, rfl, rfl⟩
  intro c after t h
  obtain ⟨h1, h2⟩ := cronSearch_sound c cronSearchHorizon (after + 1) t h
  exact ⟨by omega, h2⟩

/-- A concrete Cron trigger for the C4 witness: minute 0, hour 1,
day-of-week `0-4`. -/
def c4Cron : CronTrigger :=
  { minute := some 0, hour := some 1, dayOfWeek := parseDayOfWeek "0-4" }

/-- Witness for C4: from `after` = 0 the trigger fires at minute 60 (01:00 on
the model's Sunday), which is strictly later and satisfies all constraints. -/
theorem c4_cron_next_fire_witness : 0 < 60 ∧ cronMatches c4Cron 60 = true :=
  c4_cron_next_fire.1 c4Cron 0 60 (by decide)

/-! ## Claim C8 -/

theorem skipWs_lbracket (rest : List Char) : skipWs ('[' :: rest) = '[' :: rest := by
  simp [skipWs]

theorem parseValue_lbracket (fuel : Nat) (rest : List Char) (v : Json) (r : List Char)
    (h : parseValue (fuel + 1) ('[' :: rest) = some (v, r)) : ∃ es, v = Json.arr es := by
  rw [parseValue, skipWs_lbracket] at h
  split at h
  · simp_all
  · simp_all
  · simp_all
  · simp_all
  · simp_all
  · rename_i x1 rest1 heq
    injection heq with heq1 heq2
    subst heq2
    split at h
    · rw [Option.some.injEq, Prod.mk.injEq] at h
      exact ⟨[], h.1.symm⟩
    · cases hp : parseElems fuel rest with
      | none => rw [hp] at h; simp at h
      | some pr =>
        rw [hp] at h
        simp at h
        exact ⟨pr.1, h.1.symm⟩
  · simp_all
  · simp_all
  · rename_i x7 c1 rest1 hn ht hf hq hb hbr hm heq
    injection heq with heq1 heq2
    subst heq1
    exact absurd rfl hb

theorem jsonParse_bracket_arr (s : String) (a : Json)
    (h : jsonParse ("[" ++ s ++ "]") = some a) : ∃ es, a = Json.arr es := by
  unfold jsonParse at h
  have hdata : ("[" ++ s ++ "]").toList = '[' :: (s.data ++ [']']) := by
    simp [String.toList, String.data_append]
  have hlen : 2 * ("[" ++ s ++ "]").length + 4 = (2 * s.length + 7) + 1 := by
    have h1 : ("[" : String).length = 1 := rfl
    have h2 : ("]" : String).length = 1 := rfl
    simp [String.length_append, h1, h2]
    omega
  rw [hdata, hlen] at h
  cases hp : parseValue (2 * s.length + 7 + 1) ('[' :: (s.data ++ [']'])) with
  | none => rw [hp] at h; simp at h
  | some pr =>
    obtain ⟨v, rest⟩ := pr
    rw [hp] at h
    simp at h
    obtain ⟨hws, hva⟩ := h
    obtain ⟨es, he⟩ := parseValue_lbracket (2 * s.length + 7) (s.data ++ [']']) v rest hp
    exact ⟨es, by rw [← hva, he]⟩

theorem buildJobData_some (f : JobFormData) (d : JobData) (h : buildJobData f = some d) :
    (if f.args = "" then some (Json.arr []) else jsonParse ("[" ++ f.args ++ "]")) = some d.args
    ∧ (if f.kwargs = "" then some (Json.obj []) else jsonParse f.kwargs) = some d.kwargs := by
  unfold buildJobData at h
  by_cases hA : f.args = ""
  · rw [if_pos hA] at h
    rw [if_pos hA]
    by_cases hK : f.kwargs = ""
    · rw [if_pos hK]
      simp only [hK, if_true] at h
      injection h with h2
      exact ⟨by rw [← h2], by rw [← h2]⟩
    · rw [if_neg hK]
      simp only [hK, if_false] at h
      cases hk : jsonParse f.kwargs with
      | none =>
        rw [hk] at h
        simp at h
      | some k =>
        rw [hk] at h
        injection h with h2
        exact ⟨by rw [← h2], by rw [← h2]⟩
  · rw [if_neg hA] at h
    rw [if_neg hA]
    simp only [hA, if_false] at h
    cases ha : jsonParse ("[" ++ f.args ++ "]") with
    | none =>
      rw [ha] at h
      simp at h
    | some a =>
      rw [ha] at h
      by_cases hK : f.kwargs = ""
      · rw [if_pos hK]
        simp only [hK, if_true] at h
        injection h with h2
        exact ⟨by rw [← h2], by rw [← h2]⟩
      · rw [if_neg hK]
        simp only [hK, if_false] at h
        cases hk : jsonParse f.kwargs with
        | none =>
          rw [hk] at h
          simp at h
        | some k =>
          rw [hk] at h
          injection h with h2
          exact ⟨by rw [← h2], by rw [← h2]⟩

/-- Claim C8: `JobForm.handleSubmit` builds the job payload with positional
args `[]` when the args field is empty and keyword args `{}` when the kwargs
field is empty; a non-empty args field is parsed as the JSON array obtained by
wrapping the raw text in square brackets (so the parsed args value is always
an array); and when `JSON.parse` fails on either field, no `createJob`
request is sent — the request is sent exactly when both fields parse. -/
theorem c8_job_form_parsing :
    (∀ (f : JobFormData) (d : JobData), f.args = "" → buildJobData f = some d →
      d.args = Json.arr [])
    ∧ (∀ (f : JobFormData) (d : JobData), f.kwargs = "" → buildJobData f = some d →
      d.kwargs = Json.obj [])
    ∧ (∀ (f : JobFormData) (d : JobData), f.args ≠ "" → buildJobData f = some d →
      jsonParse ("[" ++ f.args ++ "]") = some d.args ∧ ∃ es, d.args = Json.arr es)
    ∧ (∀ f : JobFormData, buildJobData f = none → handleSubmitRequests f = [])
    ∧ (∀ (f : JobFormData) (d : JobData), buildJobData f = some d →
      handleSubmitRequests f = [Request.createJobReq d]) := by
  refine ⟨?_, ?_, ?_, ?_, ?_⟩
  · intro f d ha hb
    have h := (buildJobData_some f d hb).1
    rw [if_pos ha] at h
    rw [Option.some.injEq] at h
    exact h.symm
  · intro f d hk hb
    have h := (buildJobData_some f d hb).2
    rw [if_pos hk] at h
    rw [Option.some.injEq] at h
    exact h.symm
  · intro f d ha hb
    have h := (buildJobData_some f d hb).1
    rw [if_neg ha] at h
    exact ⟨h, jsonParse_bracket_arr _ _ h⟩
  · intro f h
    unfold handleSubmitRequests
    rw [h]
  · intro f d h
    unfold handleSubmitRequests
    rw [h]

/-- A job form whose args field is not valid JSON once wrapped in brackets:
`[,]` does not parse. -/
def c8FormBad : JobFormData :=
  { name := "bad", func_name := "sample_job", custom_code := "", trigger_type := "interval",
    args := ",", kwargs := "", max_instances := 1 }

/-- A job form with empty args and kwargs fields. -/
def c8FormEmpty : JobFormData :=
  { name := "empty", func_name := "sample_job", custom_code := "", trigger_type := "interval",
    args := "", kwargs := "", max_instances := 1 }

/-- The payload `handleSubmit` builds for `c8FormEmpty`. -/
def c8DataEmpty : JobData :=
  { name := "empty", func_name := "sample_job", trigger_type := "interval",
    args := Json.arr [], kwargs := Json.obj [], custom_code := none, max_instances := 1 }

/-- Witness for C8: the empty-fields form yields args `[]` and kwargs `{}`
and sends exactly one create request; the unparsable form sends none. -/
theorem c8_job_form_parsing_witness :
    c8DataEmpty.args = Json.arr []
    ∧ c8DataEmpty.kwargs = Json.obj []
    ∧ handleSubmitRequests c8FormEmpty = [Request.createJobReq c8DataEmpty]
    ∧ handleSubmitRequests c8FormBad = [] :=
  ⟨c8_job_form_parsing.1 c8FormEmpty c8DataEmpty rfl rfl,
   c8_job_form_parsing.2.1 c8FormEmpty c8DataEmpty rfl rfl,
   c8_job_form_parsing.2.2.2.2 c8FormEmpty c8DataEmpty rfl,
   c8_job_form_parsing.2.2.2.1 c8FormBad rfl⟩
